import Mathlib

/-!
Verification development for the report_srv repository.

Shallow embedding of:
 - the report status state machine (src/internal/models/report.go),
 - the GORM-backed report repository and the background processor
   (src/internal/service/report.go),
 - the storage middleware chain (src/internal/storage/middleware.go),
 - the storage builder and the two storage backends
   (src/unnamed/part_005, src/internal/storage/storage.go).

Go strings are Lean `String`, Go time values are `Nat` instants passed as an
explicit `now` argument, the database and the filesystem are association
lists, and a Go method that mutates its receiver is a Lean function that
returns the updated receiver.  A context is represented by the one bit the
embedded code inspects: whether it is already canceled at a given point.
-/

namespace ReportSrv

/-! ## Report status state machine — src/internal/models/report.go -/

/-- Go type `ReportStatus string`. -/
abbrev ReportStatus := String

def StatusPending : ReportStatus := "pending"
def StatusProcessing : ReportStatus := "processing"
def StatusCompleted : ReportStatus := "completed"
def StatusFailed : ReportStatus := "failed"
def StatusCanceled : ReportStatus := "canceled"

namespace ReportStatus

/-- Go `ReportStatus.IsValid` (report.go:35-42): the five recognized values. -/
def IsValid (s : ReportStatus) : Bool :=
  s = StatusPending ∨ s = StatusProcessing ∨ s = StatusCompleted ∨
    s = StatusFailed ∨ s = StatusCanceled

/-- The `transitions` map built inside `CanTransitionTo` (report.go:51-57);
`none` models a key that is absent from the Go map. -/
def transitions (s : ReportStatus) : Option (List ReportStatus) :=
  if s = StatusPending then some [StatusProcessing, StatusCanceled]
  else if s = StatusProcessing then some [StatusCompleted, StatusFailed, StatusCanceled]
  else if s = StatusCompleted then some []
  else if s = StatusFailed then some [StatusPending]
  else if s = StatusCanceled then some [StatusPending]
  else none

/-- Go `ReportStatus.CanTransitionTo` (report.go:50-70): map lookup, `false` when
the key is absent, otherwise linear membership scan. -/
def CanTransitionTo (s newStatus : ReportStatus) : Bool :=
  match transitions s with
  | none => false
  | some allowed => decide (newStatus ∈ allowed)

end ReportStatus

/-- The `Report` entity (report.go:97-110).  `Parameters` keeps the JSON map
abstractly as an association list; gorm's `DeletedAt` is omitted (never read
by the embedded operations). -/
structure Report where
  ID : Nat
  CreatedAt : Nat
  UpdatedAt : Nat
  Title : String
  Description : String
  Status : ReportStatus
  FileKey : String
  GeneratedAt : Option Nat
  Parameters : List (String × String)
  CreatedBy : String
  UpdatedBy : String
deriving DecidableEq, Repr

/-- The two error shapes `Report.SetStatus` can produce (report.go:353-359). -/
inductive SetStatusError
  | invalidStatus (s : ReportStatus)
  | invalidTransition (fromStatus toStatus : ReportStatus)
deriving DecidableEq, Repr

/-- Go `Report.SetStatus` (report.go:352-372).  The Go method mutates its
receiver and returns an error; here the first component is the receiver's
state after the call and the second is the returned error, `none` = nil.
Both checks precede every assignment, exactly as in the source. -/
def Report.SetStatus (r : Report) (status : ReportStatus) (updatedBy : String)
    (now : Nat) : Report × Option SetStatusError :=
  if ¬ ReportStatus.IsValid status then
    (r, some (SetStatusError.invalidStatus status))
  else if ¬ ReportStatus.CanTransitionTo r.Status status then
    (r, some (SetStatusError.invalidTransition r.Status status))
  else
    let r1 := { r with Status := status, UpdatedBy := updatedBy.trim, UpdatedAt := now }
    let r2 :=
      if status = StatusCompleted ∧ r1.GeneratedAt = none then
        { r1 with GeneratedAt := some now }
      else r1
    (r2, none)

/-- A sequence of `SetStatus` calls applied to the receiver, keeping the
receiver's state after each call whether or not it errored (as Go does). -/
def Report.setStatusSeq (r : Report) : List (ReportStatus × String × Nat) → Report
  | [] => r
  | (s, a, n) :: rest => ((r.SetStatus s a n).1).setStatusSeq rest

/-- The transition table of spec §4.1, as the edge list it draws:
Pending→{Processing,Canceled}, Processing→{Completed,Failed,Canceled},
Failed→Pending, Canceled→Pending, Completed→none. -/
def table41 : List (ReportStatus × ReportStatus) :=
  [(StatusPending, StatusProcessing), (StatusPending, StatusCanceled),
   (StatusProcessing, StatusCompleted), (StatusProcessing, StatusFailed),
   (StatusProcessing, StatusCanceled),
   (StatusFailed, StatusPending), (StatusCanceled, StatusPending)]

lemma canTransitionTo_iff_table (f t : ReportStatus) :
    ReportStatus.CanTransitionTo f t = true ↔ (f, t) ∈ table41 := by
  unfold ReportStatus.CanTransitionTo ReportStatus.transitions
  unfold table41 StatusPending StatusProcessing StatusCompleted StatusFailed StatusCanceled
  split_ifs with h1 h2 h3 h4 h5 <;> simp_all [Prod.ext_iff]

lemma mem_table41_isValid (f t : ReportStatus) (h : (f, t) ∈ table41) :
    ReportStatus.IsValid t = true := by
  unfold table41 at h
  unfold ReportStatus.IsValid
  simp only [List.mem_cons, List.not_mem_nil, or_false, Prod.mk.injEq] at h
  rcases h with ⟨_, h⟩ | ⟨_, h⟩ | ⟨_, h⟩ | ⟨_, h⟩ | ⟨_, h⟩ | ⟨_, h⟩ | ⟨_, h⟩ <;>
    subst h <;> simp [StatusPending, StatusProcessing, StatusCompleted,
      StatusFailed, StatusCanceled]

/-! ## GORM report repository — src/internal/service/report.go:565-660

The database is an association list from report id to row.  A repository
call made on a canceled context fails without touching the database (the
underlying SQL driver checks the context); `ctxLive = true` means the
context is not canceled at the moment of the call. -/

/-- The columns of a `reports` row that the embedded operations touch. -/
structure DBRow where
  Status : ReportStatus
  FileKey : String
  UpdatedAt : Nat
  GeneratedAt : Option Nat
  UpdatedBy : String
  Title : String
  Description : String
deriving DecidableEq, Repr

abbrev DB := List (Nat × DBRow)

/-- SQL `UPDATE ... WHERE id = ?`: rewrite every row whose id matches; rows that
do not match are untouched, and matching zero rows is not an error. -/
def updateRows (db : DB) (id : Nat) (f : DBRow → DBRow) : DB :=
  db.map fun p => if p.1 = id then (p.1, f p.2) else p

def rowOf (db : DB) (id : Nat) : Option DBRow :=
  (db.find? fun p => p.1 = id).map Prod.snd

def statusOf (db : DB) (id : Nat) : Option ReportStatus :=
  (rowOf db id).map DBRow.Status

/-- Go `GormReportRepository.UpdateStatus` (report.go:644-660): sets `status`
and `updated_at` unconditionally, `file_key` only when the argument is
non-empty, and `generated_at := now` whenever the new status is Completed.
No transition check of any kind is performed. -/
def GormUpdateStatus (ctxLive : Bool) (db : DB) (id : Nat)
    (status : ReportStatus) (fileKey : String) (now : Nat) : Except String DB :=
  if ctxLive then
    Except.ok (updateRows db id fun row =>
      { row with
        Status := status
        UpdatedAt := now
        FileKey := if fileKey = "" then row.FileKey else fileKey
        GeneratedAt := if status = StatusCompleted then some now else row.GeneratedAt })
  else Except.error "context canceled"

/-- Go `GormReportRepository.GetByID` (report.go:585-589): `First` errors with
record-not-found when the row is absent. -/
def GormGetByID (ctxLive : Bool) (db : DB) (id : Nat) : Except String DBRow :=
  if ctxLive then
    match rowOf db id with
    | some row => Except.ok row
    | none => Except.error "record not found"
  else Except.error "context canceled"

lemma find?_updateRows (db : DB) (id : Nat) (f : DBRow → DBRow) :
    (updateRows db id f).find? (fun p => p.1 = id) =
      ((db.find? fun p => p.1 = id).map fun p => (p.1, f p.2)) := by
  induction db with
  | nil => rfl
  | cons hd tl ih =>
    by_cases h : hd.1 = id
    · simp [updateRows, List.find?_cons, h, ih]
    · simpa [updateRows, List.find?_cons, h] using ih

lemma rowOf_updateRows (db : DB) (id : Nat) (f : DBRow → DBRow) :
    rowOf (updateRows db id f) id = (rowOf db id).map f := by
  unfold rowOf
  rw [find?_updateRows]
  cases db.find? fun p => p.1 = id <;> simp

lemma statusOf_GormUpdateStatus (db db' : DB) (id : Nat) (status : ReportStatus)
    (fileKey : String) (now : Nat)
    (h : GormUpdateStatus true db id status fileKey now = Except.ok db') :
    statusOf db' id = (statusOf db id).map fun _ => status := by
  unfold GormUpdateStatus at h
  simp only [if_pos rfl] at h
  cases h
  simp [statusOf, rowOf, find?_updateRows]
  cases db.find? fun p => p.1 = id <;> simp

/-! ## Background processor executor — src/internal/service/report.go:744-812

`processReportGeneration` is run with the task's derived context.  The
context is summarized by `cancelTime`: the repository call with program-order
index `k` sees a live context iff `k < cancelTime` (`none` = never
canceled).  Repository calls in program order: 0 = UpdateStatus(Processing),
1 = GetByID, 2 = the third repository call on whichever path is taken
(UpdateStatus(Failed) after a fetch/generate/save failure, or
UpdateStatus(Completed) after a successful save).  The generator and the
file storage are oracles `genOk`/`saveOk`; their failure branches each write
Failed.  The second component of the result is the trace of repository
status writes that actually landed, each recorded with the status the row
held at the moment of the write. -/

def stepLive (cancelTime : Option Nat) (k : Nat) : Bool :=
  match cancelTime with
  | none => true
  | some t => decide (k < t)

/-- One repository status write, traced.  On error the database is unchanged
and nothing is appended to the trace. -/
def repoWrite (live : Bool) (db : DB) (id : Nat) (status : ReportStatus)
    (fileKey : String) (now : Nat) : DB × List (Option ReportStatus × ReportStatus) :=
  match GormUpdateStatus live db id status fileKey now with
  | Except.ok db' => (db', [(statusOf db id, status)])
  | Except.error _ => (db, [])

/-- Go `SyncBackgroundProcessor.processReportGeneration` (report.go:761-812). -/
def processReportGeneration (cancelTime : Option Nat) (genOk saveOk : Bool)
    (db : DB) (reportID : Nat) (fileKey : String) (now : Nat) :
    DB × List (Option ReportStatus × ReportStatus) :=
  match GormUpdateStatus (stepLive cancelTime 0) db reportID StatusProcessing "" now with
  | Except.error _ => (db, [])
  | Except.ok db1 =>
    let t1 : List (Option ReportStatus × ReportStatus) := [(statusOf db reportID, StatusProcessing)]
    match GormGetByID (stepLive cancelTime 1) db1 reportID with
    | Except.error _ =>
      let (db2, t2) := repoWrite (stepLive cancelTime 2) db1 reportID StatusFailed "" now
      (db2, t1 ++ t2)
    | Except.ok _report =>
      if ¬ genOk then
        let (db2, t2) := repoWrite (stepLive cancelTime 2) db1 reportID StatusFailed "" now
        (db2, t1 ++ t2)
      else if ¬ saveOk then
        let (db2, t2) := repoWrite (stepLive cancelTime 2) db1 reportID StatusFailed "" now
        (db2, t1 ++ t2)
      else
        let (db2, t2) := repoWrite (stepLive cancelTime 2) db1 reportID StatusCompleted fileKey now
        (db2, t1 ++ t2)

/-! ## SubmitTask — src/internal/service/report.go:708-717

`SubmitTask` is a three-way `select` with a `default` branch over the bounded
task channel (`make(chan Task, 100)`).  Go semantics: when at least one
communication is ready, one of the ready ones fires (the choice among several
ready ones is not specified); the `default` branch fires only when none is
ready.  The send is ready iff the channel buffer has a free slot; `ctx.Done()`
is ready iff the context is canceled.  `SubmitTaskStep` is the resulting
step relation (as a decidable Bool): it holds of the outcomes and queue
states an invocation can produce. -/

/-- The `Task` struct (report.go:73-79).  `Data` is the report id (the only
payload the program ever submits), `Priority` and `Timeout` are numbers. -/
structure Task where
  ID : String
  TaskType : String
  Data : Nat
  Priority : Nat
  Timeout : Nat
deriving DecidableEq, Repr

/-- Capacity of the processor's task channel: `make(chan Task, 100)`
(report.go:703). -/
def taskQueueCapacity : Nat := 100

inductive SubmitOutcome
  | enqueued
  | ctxErr
  | queueFull
deriving DecidableEq, Repr

def SubmitTaskStep (ctxDone : Bool) (q : List Task) (task : Task)
    (o : SubmitOutcome) (q' : List Task) : Bool :=
  if q.length < taskQueueCapacity || ctxDone then
    (decide (o = SubmitOutcome.enqueued) && decide (q.length < taskQueueCapacity) &&
        decide (q' = q ++ [task])) ||
      (decide (o = SubmitOutcome.ctxErr) && ctxDone && decide (q' = q))
  else decide (o = SubmitOutcome.queueFull) && decide (q' = q)

/-! ## Report service UpdateReport and the cancellation registries —
src/internal/service/report.go:137-147, 253-303, 405-412, 744-758

`ReportServiceImpl` holds its own `cancellations sync.Map` keyed by report
id (`svcCancellations`); the processor holds a separate registry keyed by
task id string (`procCancellations`, populated by `processTask` with
`p.cancellations.Store(task.ID, cancel)`).  The state also records which
handles have actually been invoked.  Across the whole repository the only
`Store` into a cancellations map is the processor's; no code path ever adds
to the service's map, so the embedded operations can remove from
`svcCancellations` but nothing ever inserts into it. -/

structure SvcState where
  db : DB
  svcCancellations : List Nat
  procCancellations : List String
  invokedSvc : List Nat
  invokedProc : List String
deriving DecidableEq, Repr

/-- Go `ReportServiceImpl.cancelGeneration` (report.go:406-412):
`LoadAndDelete` on the service's own map; when a handle is present it is
removed and invoked, otherwise nothing happens.  The processor's registry is
not consulted. -/
def cancelGeneration (st : SvcState) (reportID : Nat) : SvcState :=
  if reportID ∈ st.svcCancellations then
    { st with
      svcCancellations := st.svcCancellations.filter (fun i => ¬ i = reportID)
      invokedSvc := st.invokedSvc ++ [reportID] }
  else st

/-- Go `ReportUpdateParams` (report.go:120-126). -/
structure ReportUpdateParams where
  Title : Option String
  Description : Option String
  Status : Option ReportStatus
  Parameters : Option (List (String × String))
  UpdatedBy : String
deriving DecidableEq, Repr

/-- The `updates` map handed to `repository.Update` by `UpdateReport`,
applied to a row (gorm `Updates` with a map sets exactly the present keys). -/
def applyUpdateParams (params : ReportUpdateParams) (now : Nat) (row : DBRow) : DBRow :=
  let row := { row with UpdatedBy := params.UpdatedBy, UpdatedAt := now }
  let row := match params.Title with
    | some t => { row with Title := t }
    | none => row
  let row := match params.Description with
    | some d => { row with Description := d }
    | none => row
  match params.Status with
  | some s => { row with Status := s }
  | none => row

/-- Go `ReportServiceImpl.UpdateReport` (report.go:253-303): fetch the report;
when the patch carries a status, reject the call before writing anything if
the transition from the current status is not allowed, and when the patched
status is Canceled call `cancelGeneration` (the service-local registry
lookup) — `processor.CancelTask` is not called on this path.  Finally apply
the updates map through `repository.Update`. -/
def UpdateReport (st : SvcState) (id : Nat) (params : ReportUpdateParams)
    (now : Nat) : SvcState × Option String :=
  match GormGetByID true st.db id with
  | Except.error _ => (st, some "report not found")
  | Except.ok report =>
    match params.Status with
    | some newStatus =>
      if ¬ ReportStatus.CanTransitionTo report.Status newStatus then
        (st, some "invalid status transition")
      else
        let st1 := if newStatus = StatusCanceled then cancelGeneration st id else st
        ({ st1 with db := updateRows st1.db id (applyUpdateParams params now) }, none)
    | none =>
      ({ st with db := updateRows st.db id (applyUpdateParams params now) }, none)

/-! ## Storage middleware chain — src/internal/storage/middleware.go -/

/-- The key-bearing operations of the `Storage` interface (part_005:41-64).
`JoinPath` and `ValidateKey` take no storage key and are pure pass-throughs
in every middleware, so they are not represented. -/
inductive StorageOp
  | Save (key : String)
  | Get (key : String)
  | Delete (key : String)
  | Exists (key : String)
  | GetMetadata (key : String)
  | GetSize (key : String)
  | GetURL (key : String)
  | GetPresignedURL (key : String)
  | List (pre : String)
  | Copy (srcKey dstKey : String)
  | Move (srcKey dstKey : String)
deriving DecidableEq, Repr

/-- Errors surfaced by the validation middleware: its own empty-key error
(middleware.go:295-300) or a wrapped inner error. -/
inductive MWError
  | emptyKey
  | innerErr (e : String)
deriving DecidableEq, Repr

/-- Go `ValidationMiddleware.validateKey` (middleware.go:295-300): the only
check the middleware itself performs is rejecting the empty key. -/
def validateKeyMW (key : String) : Option MWError :=
  if key = "" then some MWError.emptyKey else none

/-- Go `ValidationMiddleware`'s dispatch, one branch per method of
middleware.go:271-359.  The inner storage is abstract; the second component
lists the operations actually forwarded to it, so `[]` means the call
short-circuited before reaching the wrapped storage.  `List`
(middleware.go:337-339) forwards without validating its prefix argument. -/
def ValidationMiddleware.run (inner : StorageOp → Except String Unit) :
    StorageOp → Except MWError Unit × List StorageOp
  | StorageOp.Save key =>
    match validateKeyMW key with
    | some e => (Except.error e, [])
    | none => ((inner (StorageOp.Save key)).mapError MWError.innerErr, [StorageOp.Save key])
  | StorageOp.Get key =>
    match validateKeyMW key with
    | some e => (Except.error e, [])
    | none => ((inner (StorageOp.Get key)).mapError MWError.innerErr, [StorageOp.Get key])
  | StorageOp.Delete key =>
    match validateKeyMW key with
    | some e => (Except.error e, [])
    | none => ((inner (StorageOp.Delete key)).mapError MWError.innerErr, [StorageOp.Delete key])
  | StorageOp.Exists key =>
    match validateKeyMW key with
    | some e => (Except.error e, [])
    | none => ((inner (StorageOp.Exists key)).mapError MWError.innerErr, [StorageOp.Exists key])
  | StorageOp.GetMetadata key =>
    match validateKeyMW key with
    | some e => (Except.error e, [])
    | none =>
      ((inner (StorageOp.GetMetadata key)).mapError MWError.innerErr, [StorageOp.GetMetadata key])
  | StorageOp.GetSize key =>
    match validateKeyMW key with
    | some e => (Except.error e, [])
    | none => ((inner (StorageOp.GetSize key)).mapError MWError.innerErr, [StorageOp.GetSize key])
  | StorageOp.GetURL key =>
    match validateKeyMW key with
    | some e => (Except.error e, [])
    | none => ((inner (StorageOp.GetURL key)).mapError MWError.innerErr, [StorageOp.GetURL key])
  | StorageOp.GetPresignedURL key =>
    match validateKeyMW key with
    | some e => (Except.error e, [])
    | none =>
      ((inner (StorageOp.GetPresignedURL key)).mapError MWError.innerErr,
        [StorageOp.GetPresignedURL key])
  | StorageOp.List pre =>
    ((inner (StorageOp.List pre)).mapError MWError.innerErr, [StorageOp.List pre])
  | StorageOp.Copy srcKey dstKey =>
    match validateKeyMW srcKey with
    | some e => (Except.error e, [])
    | none =>
      match validateKeyMW dstKey with
      | some e => (Except.error e, [])
      | none =>
        ((inner (StorageOp.Copy srcKey dstKey)).mapError MWError.innerErr,
          [StorageOp.Copy srcKey dstKey])
  | StorageOp.Move srcKey dstKey =>
    match validateKeyMW srcKey with
    | some e => (Except.error e, [])
    | none =>
      match validateKeyMW dstKey with
      | some e => (Except.error e, [])
      | none =>
        ((inner (StorageOp.Move srcKey dstKey)).mapError MWError.innerErr,
          [StorageOp.Move srcKey dstKey])

/-- Summary of the middleware's own key check per operation: `none` means it
delegates, `some e` means it short-circuits with `e`. -/
def mwKeyCheck : StorageOp → Option MWError
  | StorageOp.Save key | StorageOp.Get key | StorageOp.Delete key | StorageOp.Exists key
  | StorageOp.GetMetadata key | StorageOp.GetSize key | StorageOp.GetURL key
  | StorageOp.GetPresignedURL key => validateKeyMW key
  | StorageOp.List _ => none
  | StorageOp.Copy srcKey dstKey | StorageOp.Move srcKey dstKey =>
    match validateKeyMW srcKey with
    | some e => some e
    | none => validateKeyMW dstKey

/-! ### Retry middleware — middleware.go:133-214 -/

inductive RetryOutcome
  | ok
  | err (e : String)
  | ctxErr
deriving DecidableEq, Repr

/-- Outcome of a retried operation together with the number of times the
inner operation was invoked. -/
structure RetryResult where
  outcome : RetryOutcome
  calls : Nat
deriving DecidableEq, Repr

/-- Go `RetryMiddleware.shouldRetry` (middleware.go:211-214): always true. -/
def shouldRetry (_e : String) : Bool := true

/-- The loop body of `RetryMiddleware.retryOperation` (middleware.go:177-208)
from iteration `attempt` on.  `fn i` is the result of the `i`-th inner
invocation (`none` = success); `ctxDoneAt i` tells whether the context is
already canceled during the sleep that follows a failed attempt `i`.  The
Go loop runs `attempt` from 0 to `maxRetries` inclusive, sleeps between
attempts racing the sleep against `ctx.Done()`, and returns the last error
when the budget is exhausted. -/
def retryAux (maxRetries : Nat) (fn : Nat → Option String) (ctxDoneAt : Nat → Bool)
    (attempt : Nat) : RetryResult :=
  match fn attempt with
  | none => ⟨RetryOutcome.ok, attempt + 1⟩
  | some e =>
    if ¬ shouldRetry e then ⟨RetryOutcome.err e, attempt + 1⟩
    else if _h : attempt < maxRetries then
      if ctxDoneAt attempt then ⟨RetryOutcome.ctxErr, attempt + 1⟩
      else retryAux maxRetries fn ctxDoneAt (attempt + 1)
    else ⟨RetryOutcome.err e, attempt + 1⟩
termination_by maxRetries - attempt
decreasing_by omega

/-- Go `RetryMiddleware.retryOperation`, entered at attempt 0. -/
def retryOperation (maxRetries : Nat) (fn : Nat → Option String)
    (ctxDoneAt : Nat → Bool) : RetryResult :=
  retryAux maxRetries fn ctxDoneAt 0

/-- Go `RetryMiddleware.Save` (middleware.go:152-156) is `retryOperation`
applied to the inner Save. -/
def RetryMiddleware.Save (maxRetries : Nat) (innerSave : Nat → Option String)
    (ctxDoneAt : Nat → Bool) : RetryResult :=
  retryOperation maxRetries innerSave ctxDoneAt

/-! ## Storage builder middleware wrapping — src/unnamed/part_005:203-216 -/

inductive StorageLayer
  | logging
  | retry
  | validation
deriving DecidableEq, Repr

/-- A wrapped storage instance: the list of middleware layers around the
backend, outermost first (`[]` is the bare backend). -/
abbrev StorageStack := List StorageLayer

/-- Go `NewLoggingMiddleware` (middleware.go:19-24) wraps its argument. -/
def NewLoggingMiddleware (s : StorageStack) : StorageStack := StorageLayer.logging :: s

/-- Go `NewRetryMiddleware` (middleware.go:142-149) wraps its argument. -/
def NewRetryMiddleware (s : StorageStack) : StorageStack := StorageLayer.retry :: s

/-- Go `NewValidationMiddleware` (middleware.go:263-268) wraps its argument. -/
def NewValidationMiddleware (s : StorageStack) : StorageStack := StorageLayer.validation :: s

/-- Go `StorageBuilder.wrapWithMiddleware` (part_005:203-216): reassigns
`storage` three times — logging first (only when a logger is configured),
then retry, then validation — so each later wrap becomes an outer layer. -/
def wrapWithMiddleware (hasLogger : Bool) (backend : StorageStack) : StorageStack :=
  let s := backend
  let s := if hasLogger then NewLoggingMiddleware s else s
  let s := NewRetryMiddleware s
  NewValidationMiddleware s

inductive SaveEvent
  | enterLogging
  | enterRetry
  | enterValidation
  | enterBackend
deriving DecidableEq, Repr

/-- The order in which a single successful `Save` call with a valid key
enters the layers of a wrapped storage: each middleware's `Save`
(middleware.go:27-46, 152-156, 271-276) does its own work and then calls
`Save` on the storage it wraps. -/
def saveTrace : StorageStack → List SaveEvent
  | [] => [SaveEvent.enterBackend]
  | StorageLayer.logging :: rest => SaveEvent.enterLogging :: saveTrace rest
  | StorageLayer.retry :: rest => SaveEvent.enterRetry :: saveTrace rest
  | StorageLayer.validation :: rest => SaveEvent.enterValidation :: saveTrace rest

/-! ## Storage backends — src/unnamed/part_005 and
src/internal/storage/storage.go

The local filesystem (and the S3 bucket) is an association list from full
path (resp. key) to content.  In this pure model the only way `os.Remove`
fails is that the path does not exist; `os.IsNotExist` recognizes exactly
that error. -/

abbrev FS := List (String × String)

inductive OSError
  | notExist
deriving DecidableEq, Repr

def OSError.IsNotExist : OSError → Bool
  | OSError.notExist => true

def lookupFS (fs : FS) (path : String) : Option String :=
  (fs.find? fun p => p.1 = path).map Prod.snd

/-- Go `os.Remove`: removes the entry, or fails with a not-exist error leaving
the filesystem unchanged. -/
def osRemove (fs : FS) (path : String) : FS × Option OSError :=
  if (lookupFS fs path).isSome then
    (fs.filter fun p => ¬ p.1 = path, none)
  else (fs, some OSError.notExist)

/-- Go `filepath.Join(basePath, key)`, for the keys the program uses. -/
def getFullPath (basePath key : String) : String := basePath ++ "/" ++ key

/-- Go `LocalStorage.ValidateKey` (part_005:693-701): rejects the empty key and
any key containing `".."` (Go `strings.Contains`). -/
def LocalStorage.ValidateKey (key : String) : Option String :=
  if key = "" then some "key must not be empty"
  else if "..".toList <:+: key.toList then some "key must not contain parent traversal"
  else none

/-- Go `S3Storage.ValidateKey` (part_005:456-464): rejects the empty key and
keys longer than 1024 characters. -/
def S3Storage.ValidateKey (key : String) : Option String :=
  if key = "" then some "key must not be empty"
  else if key.length > 1024 then some "key too long"
  else none

/-- Go `LocalStorage.Delete` of the full backend (part_005:535-542): an
`os.Remove` error is swallowed when `os.IsNotExist` holds, so deleting an
absent key succeeds. -/
def LocalStorage.Delete (basePath : String) (fs : FS) (key : String) :
    Except String FS :=
  let r := osRemove fs (getFullPath basePath key)
  match r.2 with
  | some e => if ¬ OSError.IsNotExist e then Except.error "delete failed" else Except.ok r.1
  | none => Except.ok r.1

/-- Go `LocalStorage.Delete` of the legacy backend
(src/internal/storage/storage.go:70-78): every `os.Remove` error, including
not-exist, is returned to the caller. -/
def LegacyLocalStorage.Delete (basePath : String) (fs : FS) (key : String) :
    Except String FS :=
  let r := osRemove fs (getFullPath basePath key)
  match r.2 with
  | some _ => Except.error "failed to delete file"
  | none => Except.ok r.1

abbrev Bucket := List (String × String)

/-- The S3 client's `DeleteObject` (part_005:321-324): per the S3 API a
delete of a non-existent key is itself a success; `clientOK = false` models
a transport/credential failure of the call. -/
def s3DeleteObject (clientOK : Bool) (b : Bucket) (key : String) :
    Except String Bucket :=
  if clientOK then Except.ok (b.filter fun p => ¬ p.1 = key)
  else Except.error "request failed"

/-- Go `S3Storage.Delete` (part_005:320-329): wraps any client error, otherwise
succeeds. -/
def S3Storage.Delete (clientOK : Bool) (b : Bucket) (key : String) :
    Except String Bucket :=
  match s3DeleteObject clientOK b key with
  | Except.ok b' => Except.ok b'
  | Except.error e => Except.error ("failed to delete from s3: " ++ e)

lemma lookupFS_filter_ne (fs : FS) (path : String) :
    lookupFS (fs.filter fun p => ¬ p.1 = path) path = none := by
  induction fs with
  | nil => rfl
  | cons hd tl ih =>
    by_cases h : hd.1 = path
    · simp [lookupFS, List.filter_cons, h] at ih ⊢
    · simp [lookupFS, List.filter_cons, List.find?_cons, h] at ih ⊢

/-! ## Claim theorems -/

lemma setStatus_preserves_generatedAt (r : Report) (s : ReportStatus)
    (a : String) (n t : Nat) (h : r.GeneratedAt = some t) :
    ((r.SetStatus s a n).1).GeneratedAt = some t := by
  unfold Report.SetStatus
  split_ifs <;> simp_all

/-- C1: `Report.SetStatus s actor` succeeds iff `s` is a recognized status
and `(r.Status, s)` is an edge of the §4.1 table; on success it sets the
status and updates `UpdatedBy`/`UpdatedAt`; when `s` is unrecognized it
fails with the invalid-status error, and on any other pair outside the
table it fails with the invalid-transition error. -/
theorem C1_setStatus_matches_table (r : Report) (s : ReportStatus)
    (actor : String) (now : Nat) :
    ((r.SetStatus s actor now).2 = none ↔
      (ReportStatus.IsValid s = true ∧ (r.Status, s) ∈ table41))
    ∧ ((r.SetStatus s actor now).2 = none →
        ((r.SetStatus s actor now).1.Status = s ∧
          (r.SetStatus s actor now).1.UpdatedBy = actor.trim ∧
          (r.SetStatus s actor now).1.UpdatedAt = now))
    ∧ (ReportStatus.IsValid s = false →
        (r.SetStatus s actor now).2 = some (SetStatusError.invalidStatus s))
    ∧ (ReportStatus.IsValid s = true → (r.Status, s) ∉ table41 →
        (r.SetStatus s actor now).2 = some (SetStatusError.invalidTransition r.Status s)) := by
  have htab := canTransitionTo_iff_table r.Status s
  unfold Report.SetStatus
  by_cases hv : ReportStatus.IsValid s = true
  · by_cases ht : ReportStatus.CanTransitionTo r.Status s = true
    · have hmem := htab.1 ht
      refine ⟨⟨fun _ => ⟨hv, hmem⟩, fun _ => ?_⟩, fun _ => ?_, ?_, ?_⟩ <;>
        simp_all <;> split_ifs <;> simp_all
    · have hnmem : (r.Status, s) ∉ table41 := fun hm => ht (htab.2 hm)
      simp_all
  · simp_all

/-- Closed instance of C1 at a pending report moved to processing. -/
theorem C1_witness :
    (({ ID := 1, CreatedAt := 0, UpdatedAt := 0, Title := "t", Description := "",
        Status := StatusPending, FileKey := "", GeneratedAt := none, Parameters := [],
        CreatedBy := "alice", UpdatedBy := "alice" } : Report).SetStatus
          StatusProcessing "bob" 5).2 = none :=
  (C1_setStatus_matches_table _ StatusProcessing "bob" 5).1.2 ⟨by decide, by decide⟩

/-- C10: when `SetStatus` returns an error, the receiver is left exactly as
it was — both checks precede every assignment. -/
theorem C10_setStatus_atomic_on_error (r : Report) (s : ReportStatus)
    (actor : String) (now : Nat) (e : SetStatusError)
    (h : (r.SetStatus s actor now).2 = some e) :
    (r.SetStatus s actor now).1 = r := by
  unfold Report.SetStatus at h ⊢
  split_ifs at h ⊢ <;> simp_all

/-- Closed instance of C10 at a completed report and an illegal target. -/
theorem C10_witness :
    (({ ID := 2, CreatedAt := 0, UpdatedAt := 3, Title := "t", Description := "",
        Status := StatusCompleted, FileKey := "k", GeneratedAt := some 3, Parameters := [],
        CreatedBy := "alice", UpdatedBy := "alice" } : Report).SetStatus
          StatusPending "eve" 9).1 =
      { ID := 2, CreatedAt := 0, UpdatedAt := 3, Title := "t", Description := "",
        Status := StatusCompleted, FileKey := "k", GeneratedAt := some 3, Parameters := [],
        CreatedBy := "alice", UpdatedBy := "alice" } :=
  C10_setStatus_atomic_on_error _ StatusPending "eve" 9
    (SetStatusError.invalidTransition StatusCompleted StatusPending) (by decide)

/-- C7 fails as stated: status updates performed through the repository
(`GormReportRepository.UpdateStatus`, one of the claim's sources) re-stamp
`generated_at` on every Completed write, so a sequence of status updates can
overwrite a previously stamped value: stamped `some 5` on the first entry
into Completed, it becomes `some 9` after a second Completed write. -/
theorem C7_counterexample :
    GormUpdateStatus true
        [(1, { Status := StatusPending, FileKey := "", UpdatedAt := 0, GeneratedAt := none,
               UpdatedBy := "alice", Title := "t", Description := "" })]
        1 StatusProcessing "" 1 =
      Except.ok
        [(1, { Status := StatusProcessing, FileKey := "", UpdatedAt := 1, GeneratedAt := none,
               UpdatedBy := "alice", Title := "t", Description := "" })]
    ∧ GormUpdateStatus true
        [(1, { Status := StatusProcessing, FileKey := "", UpdatedAt := 1, GeneratedAt := none,
               UpdatedBy := "alice", Title := "t", Description := "" })]
        1 StatusCompleted "k" 5 =
      Except.ok
        [(1, { Status := StatusCompleted, FileKey := "k", UpdatedAt := 5, GeneratedAt := some 5,
               UpdatedBy := "alice", Title := "t", Description := "" })]
    ∧ GormUpdateStatus true
        [(1, { Status := StatusCompleted, FileKey := "k", UpdatedAt := 5, GeneratedAt := some 5,
               UpdatedBy := "alice", Title := "t", Description := "" })]
        1 StatusCompleted "k" 9 =
      Except.ok
        [(1, { Status := StatusCompleted, FileKey := "k", UpdatedAt := 9, GeneratedAt := some 9,
               UpdatedBy := "alice", Title := "t", Description := "" })] :=
  ⟨rfl, rfl, rfl⟩

/-- C7 amended: at the entity level the claim holds — a successful
`SetStatus(Completed)` stamps `GeneratedAt` exactly when it was unset,
leaves an already-stamped value untouched, and no sequence of `SetStatus`
calls ever overwrites a stamped value.  (The repository's `UpdateStatus`,
by contrast, re-stamps on every Completed write — see the counterexample.) -/
theorem C7_generatedAt_stamped_once (r : Report) (a : String) (n : Nat) :
    ((r.SetStatus StatusCompleted a n).2 = none → r.GeneratedAt = none →
      (r.SetStatus StatusCompleted a n).1.GeneratedAt = some n)
    ∧ (∀ t, r.GeneratedAt = some t →
        (r.SetStatus StatusCompleted a n).1.GeneratedAt = some t)
    ∧ (∀ t, r.GeneratedAt = some t →
        ∀ updates : List (ReportStatus × String × Nat),
          (r.setStatusSeq updates).GeneratedAt = some t) := by
  refine ⟨fun hok hnone => ?_, fun t ht => setStatus_preserves_generatedAt r _ a n t ht,
    fun t ht updates => ?_⟩
  · unfold Report.SetStatus at hok ⊢
    split_ifs at hok ⊢ <;> simp_all
  · induction updates generalizing r with
    | nil => simpa [Report.setStatusSeq] using ht
    | cons u rest ih =>
      cases u with
      | mk s rest2 =>
        cases rest2 with
        | mk a2 n2 =>
          simp only [Report.setStatusSeq]
          exact ih _ (setStatus_preserves_generatedAt r s a2 n2 t ht)

/-- Closed instance of the amended C7: a stamped `GeneratedAt` survives a
Completed→(rejected)Completed update and a fresh stamp happens on first
entry. -/
theorem C7_witness :
    ((({ ID := 3, CreatedAt := 0, UpdatedAt := 2, Title := "t", Description := "",
          Status := StatusProcessing, FileKey := "", GeneratedAt := none, Parameters := [],
          CreatedBy := "a", UpdatedBy := "a" } : Report).SetStatus
          StatusCompleted "a" 7).1.GeneratedAt = some 7)
    ∧ ((({ ID := 3, CreatedAt := 0, UpdatedAt := 7, Title := "t", Description := "",
            Status := StatusCompleted, FileKey := "", GeneratedAt := some 7, Parameters := [],
            CreatedBy := "a", UpdatedBy := "a" } : Report).setStatusSeq
          [(StatusCompleted, "b", 9), (StatusPending, "b", 11)]).GeneratedAt = some 7) :=
  ⟨(C7_generatedAt_stamped_once _ "a" 7).1 (by decide) rfl,
   (C7_generatedAt_stamped_once _ "b" 0).2.2 7 rfl
     [(StatusCompleted, "b", 9), (StatusPending, "b", 11)]⟩

/-- C2 fails as stated: the executor's repository status writes are not
validated against the §4.1 table.  Run against a report that is already
Canceled (an externally-applied cancellation) with a live context, the
executor lands the write Canceled→Processing — an edge outside the table —
and finishes by overwriting the Canceled status with Completed. -/
theorem C2_counterexample :
    (processReportGeneration none true true
        [(1, { Status := StatusCanceled, FileKey := "", UpdatedAt := 0, GeneratedAt := none,
               UpdatedBy := "ext", Title := "t", Description := "" })]
        1 "reports/1/x.xlsx" 9).2 =
      [(some StatusCanceled, StatusProcessing), (some StatusProcessing, StatusCompleted)]
    ∧ ReportStatus.CanTransitionTo StatusCanceled StatusProcessing = false
    ∧ statusOf (processReportGeneration none true true
        [(1, { Status := StatusCanceled, FileKey := "", UpdatedAt := 0, GeneratedAt := none,
               UpdatedBy := "ext", Title := "t", Description := "" })]
        1 "reports/1/x.xlsx" 9).1 1 = some StatusCompleted :=
  ⟨rfl, rfl, rfl⟩

/-- C2 amended: the executor writes statuses unconditionally — with a live
context and successful generation and save, the report ends Completed
whatever status it held, table or no table; the only protection is the task
context: once it is canceled before the executor's third repository call,
no Completed write ever lands. -/
theorem C2_executor_unvalidated_writes (genOk saveOk : Bool) (db : DB)
    (id : Nat) (fk : String) (now : Nat) :
    (∀ s, statusOf db id = some s → genOk = true → saveOk = true →
      statusOf (processReportGeneration none genOk saveOk db id fk now).1 id =
        some StatusCompleted)
    ∧ (∀ t, t ≤ 2 →
        ∀ e ∈ (processReportGeneration (some t) genOk saveOk db id fk now).2,
          e.2 ≠ StatusCompleted) := by
  constructor
  · intro s hs hg hsv
    subst hg; subst hsv
    obtain ⟨row, hrow⟩ : ∃ row, rowOf db id = some row := by
      unfold statusOf at hs
      cases h : rowOf db id with
      | none => rw [h] at hs; exact absurd hs (by simp)
      | some r => exact ⟨r, rfl⟩
    unfold processReportGeneration
    simp only [stepLive, GormUpdateStatus, GormGetByID, repoWrite, if_true,
      rowOf_updateRows, hrow, Option.map_some]
    simp [statusOf, rowOf_updateRows, hrow]
  · intro t ht e he
    interval_cases t
    · unfold processReportGeneration at he
      simp [stepLive, GormUpdateStatus] at he
    · unfold processReportGeneration repoWrite at he
      simp only [stepLive, GormUpdateStatus, GormGetByID] at he
      simp at he
      rw [he]
      simp [StatusProcessing, StatusCompleted]
    · unfold processReportGeneration repoWrite at he
      simp only [stepLive, GormUpdateStatus, GormGetByID] at he
      repeat' split at he
      all_goals simp_all
      all_goals simp [StatusProcessing, StatusCompleted]

/-- Closed instance of the amended C2: an already-Canceled report ends
Completed under a live context, and with the context canceled before the
third repository call no Completed write appears in the trace. -/
theorem C2_witness :
    statusOf (processReportGeneration none true true
        [(1, { Status := StatusCanceled, FileKey := "", UpdatedAt := 0, GeneratedAt := none,
               UpdatedBy := "ext", Title := "t", Description := "" })]
        1 "k" 9).1 1 = some StatusCompleted
    ∧ (some StatusPending, StatusCompleted) ∉
        (processReportGeneration (some 1) true true
          [(1, { Status := StatusPending, FileKey := "", UpdatedAt := 0, GeneratedAt := none,
                 UpdatedBy := "u", Title := "t", Description := "" })]
          1 "k" 9).2 :=
  ⟨(C2_executor_unvalidated_writes true true
      [(1, { Status := StatusCanceled, FileKey := "", UpdatedAt := 0, GeneratedAt := none,
             UpdatedBy := "ext", Title := "t", Description := "" })]
      1 "k" 9).1 StatusCanceled rfl rfl rfl,
   fun hmem =>
    (C2_executor_unvalidated_writes true true
      [(1, { Status := StatusPending, FileKey := "", UpdatedAt := 0, GeneratedAt := none,
             UpdatedBy := "u", Title := "t", Description := "" })]
      1 "k" 9).2 1 (by decide) (some StatusPending, StatusCompleted) hmem rfl⟩

/-- C3 fails as stated: `wrapWithMiddleware` reassigns the storage variable
logging-first, so the *last* wrap — validation — is outermost.  A call
entering the composed storage passes first through validation, then retry,
then logging, and only then the backend: the reverse of the claimed
Logging → Retry → Validation → backend order. -/
theorem C3_counterexample :
    saveTrace (wrapWithMiddleware true []) =
      [SaveEvent.enterValidation, SaveEvent.enterRetry, SaveEvent.enterLogging,
       SaveEvent.enterBackend]
    ∧ saveTrace (wrapWithMiddleware true []) ≠
      [SaveEvent.enterLogging, SaveEvent.enterRetry, SaveEvent.enterValidation,
       SaveEvent.enterBackend] :=
  ⟨rfl, by decide⟩

/-- C3 amended: the fixed chain order outermost→innermost is
Validation → Retry → Logging → backend, with the logging layer present only
when a logger is configured. -/
theorem C3_wrap_order (hasLogger : Bool) (backend : StorageStack) :
    wrapWithMiddleware hasLogger backend =
      StorageLayer.validation :: StorageLayer.retry ::
        (if hasLogger then StorageLayer.logging :: backend else backend)
    ∧ saveTrace (wrapWithMiddleware hasLogger backend) =
      SaveEvent.enterValidation :: SaveEvent.enterRetry ::
        (if hasLogger then SaveEvent.enterLogging :: saveTrace backend
         else saveTrace backend) := by
  cases hasLogger <;>
    simp [wrapWithMiddleware, NewLoggingMiddleware, NewRetryMiddleware,
      NewValidationMiddleware, saveTrace]

/-- C4 fails as stated: `ValidationMiddleware.List` forwards to the wrapped
storage without validating its prefix (even the empty prefix, which every
backend `ValidateKey` rejects), and for the other operations the middleware
checks only its own empty-key rule — a key with a `..` traversal segment,
rejected by the local backend's `ValidateKey`, is delegated untouched. -/
theorem C4_counterexample :
    (ValidationMiddleware.run (fun _ => Except.ok ()) (StorageOp.List "")).2 =
      [StorageOp.List ""]
    ∧ LocalStorage.ValidateKey "" ≠ none
    ∧ (ValidationMiddleware.run (fun _ => Except.ok ()) (StorageOp.Save "a../b")).2 =
      [StorageOp.Save "a../b"]
    ∧ LocalStorage.ValidateKey "a../b" ≠ none :=
  ⟨rfl, by decide, rfl, by decide⟩

/-- C4 amended: for every key-bearing operation except `List`, the
validation middleware runs its own empty-key check (both keys for
Copy/Move) before delegating and short-circuits with the validation error
without invoking the wrapped storage; `List` always delegates, and the
backend `ValidateKey` checks are never consulted. -/
theorem C4_validation_middleware (inner : StorageOp → Except String Unit)
    (op : StorageOp) :
    (∀ e, mwKeyCheck op = some e →
      ValidationMiddleware.run inner op = (Except.error e, []))
    ∧ (mwKeyCheck op = none →
      ValidationMiddleware.run inner op = ((inner op).mapError MWError.innerErr, [op]))
    ∧ (∀ pre, mwKeyCheck (StorageOp.List pre) = none) := by
  refine ⟨fun e he => ?_, fun hn => ?_, fun pre => rfl⟩ <;>
    cases op <;>
      simp_all [ValidationMiddleware.run, mwKeyCheck, validateKeyMW] <;>
      split_ifs at * <;> simp_all

/-- Closed instance of the amended C4: an empty key short-circuits Save, and
a Copy with two valid keys is delegated exactly once. -/
theorem C4_witness :
    ValidationMiddleware.run (fun _ => Except.ok ()) (StorageOp.Save "") =
      (Except.error MWError.emptyKey, [])
    ∧ ValidationMiddleware.run (fun _ => Except.ok ()) (StorageOp.Copy "a" "b") =
      (Except.ok (), [StorageOp.Copy "a" "b"]) :=
  ⟨(C4_validation_middleware (fun _ => Except.ok ()) (StorageOp.Save "")).1
      MWError.emptyKey rfl,
   (C4_validation_middleware (fun _ => Except.ok ()) (StorageOp.Copy "a" "b")).2.1 rfl⟩

lemma retryAux_ok (m : Nat) (fn : Nat → Option String) (c : Nat → Bool)
    (attempt : Nat) (h : fn attempt = none) :
    retryAux m fn c attempt = ⟨RetryOutcome.ok, attempt + 1⟩ := by
  unfold retryAux
  rw [h]

lemma retryAux_step (m : Nat) (fn : Nat → Option String) (c : Nat → Bool)
    (attempt : Nat) (e : String) (hf : fn attempt = some e) (hlt : attempt < m)
    (hc : c attempt = false) :
    retryAux m fn c attempt = retryAux m fn c (attempt + 1) := by
  conv_lhs => rw [retryAux]
  simp [hf, shouldRetry, hlt, hc]

lemma retryAux_cancel (m : Nat) (fn : Nat → Option String) (c : Nat → Bool)
    (attempt : Nat) (e : String) (hf : fn attempt = some e) (hlt : attempt < m)
    (hc : c attempt = true) :
    retryAux m fn c attempt = ⟨RetryOutcome.ctxErr, attempt + 1⟩ := by
  unfold retryAux
  rw [hf]
  simp [shouldRetry, hlt, hc]

lemma retryAux_last (m : Nat) (fn : Nat → Option String) (c : Nat → Bool)
    (attempt : Nat) (e : String) (hf : fn attempt = some e) (hge : ¬ attempt < m) :
    retryAux m fn c attempt = ⟨RetryOutcome.err e, attempt + 1⟩ := by
  unfold retryAux
  rw [hf]
  simp [shouldRetry, hge]

lemma retryAux_skip (m : Nat) (fn : Nat → Option String) (c : Nat → Bool)
    (n : Nat) (hnm : n ≤ m) (hfail : ∀ i, i < n → (fn i).isSome = true)
    (hlive : ∀ i, i < n → c i = false) :
    ∀ j, j ≤ n → retryAux m fn c j = retryAux m fn c n := by
  intro j hj
  induction' hd : (n - j) with d ih generalizing j
  · have hjn : j = n := by omega
    rw [hjn]
  · have hjn : j < n := by omega
    obtain ⟨e, he⟩ : ∃ e, fn j = some e := by
      have hs := hfail j hjn
      cases hfn : fn j
      · rw [hfn] at hs
        simp at hs
      · exact ⟨_, rfl⟩
    rw [retryAux_step m fn c j e he (by omega) (hlive j hjn)]
    exact ih (j + 1) (by omega) (by omega)

/-- C5: through the retry middleware, a Save that fails the first `n`
times (`n < maxRetries`) and then succeeds yields success after exactly
`n + 1` inner invocations; a Save that keeps failing ends with the last
error after exactly `maxRetries + 1` invocations; and a context canceled
during the inter-attempt delay after attempt `k` makes the call return the
cancellation error right there, after `k + 1` invocations, instead of
finishing the retry budget. -/
theorem C5_retry_middleware (maxRetries : Nat) (fn : Nat → Option String)
    (ctxDoneAt : Nat → Bool) :
    (∀ n, n < maxRetries → (∀ i, i < n → (fn i).isSome = true) → fn n = none →
      (∀ i, i < n → ctxDoneAt i = false) →
      RetryMiddleware.Save maxRetries fn ctxDoneAt = ⟨RetryOutcome.ok, n + 1⟩)
    ∧ ((∀ i, i < maxRetries → (fn i).isSome = true) →
      (∀ i, i < maxRetries → ctxDoneAt i = false) →
      ∀ e, fn maxRetries = some e →
        RetryMiddleware.Save maxRetries fn ctxDoneAt =
          ⟨RetryOutcome.err e, maxRetries + 1⟩)
    ∧ (∀ k, k < maxRetries → (∀ i, i ≤ k → (fn i).isSome = true) →
      (∀ i, i < k → ctxDoneAt i = false) → ctxDoneAt k = true →
      RetryMiddleware.Save maxRetries fn ctxDoneAt = ⟨RetryOutcome.ctxErr, k + 1⟩) := by
  refine ⟨fun n hn hfail hok hlive => ?_, fun hfail hlive e he => ?_,
    fun k hk hfail hlive hc => ?_⟩
  · unfold RetryMiddleware.Save retryOperation
    rw [retryAux_skip maxRetries fn ctxDoneAt n (by omega) hfail hlive 0 (by omega)]
    exact retryAux_ok maxRetries fn ctxDoneAt n hok
  · unfold RetryMiddleware.Save retryOperation
    rw [retryAux_skip maxRetries fn ctxDoneAt maxRetries (by omega) hfail hlive 0 (by omega)]
    exact retryAux_last maxRetries fn ctxDoneAt maxRetries e he (by omega)
  · obtain ⟨e, he⟩ : ∃ e, fn k = some e := by
      have hs := hfail k (by omega)
      cases hfn : fn k
      · rw [hfn] at hs
        simp at hs
      · exact ⟨_, rfl⟩
    unfold RetryMiddleware.Save retryOperation
    rw [retryAux_skip maxRetries fn ctxDoneAt k (by omega)
      (fun i hi => hfail i (by omega)) hlive 0 (by omega)]
    exact retryAux_cancel maxRetries fn ctxDoneAt k e he hk hc

/-- Closed instance of C5: two failures then success gives 3 calls; constant
failure under `maxRetries = 3` gives the error after 4 calls; a context
canceled during the delay after the second attempt stops the call at
2 invocations. -/
theorem C5_witness :
    RetryMiddleware.Save 3 (fun i => if i < 2 then some "boom" else none)
        (fun _ => false) = ⟨RetryOutcome.ok, 3⟩
    ∧ RetryMiddleware.Save 3 (fun _ => some "boom") (fun _ => false) =
        ⟨RetryOutcome.err "boom", 4⟩
    ∧ RetryMiddleware.Save 3 (fun _ => some "boom") (fun i => decide (i = 1)) =
        ⟨RetryOutcome.ctxErr, 2⟩ :=
  ⟨(C5_retry_middleware 3 (fun i => if i < 2 then some "boom" else none)
      (fun _ => false)).1 2 (by omega)
      (fun i hi => by interval_cases i <;> simp) (by simp) (fun i _ => rfl),
   (C5_retry_middleware 3 (fun _ => some "boom") (fun _ => false)).2.1
      (fun i _ => rfl) (fun i _ => rfl) "boom" rfl,
   (C5_retry_middleware 3 (fun _ => some "boom") (fun i => decide (i = 1))).2.2 1
      (by omega) (fun i _ => rfl) (fun i hi => by interval_cases i <;> simp) (by decide)⟩

/-- C6 fails as stated: on a full queue with an already-canceled submission
context, the `select` has a ready `ctx.Done()` case, so `SubmitTask`
returns the context error, not the queue-full error. -/
theorem C6_counterexample :
    SubmitTaskStep true (List.replicate 100 ⟨"report_1", "report_generation", 1, 1, 10⟩)
        ⟨"report_2", "report_generation", 2, 1, 10⟩ SubmitOutcome.ctxErr
        (List.replicate 100 ⟨"report_1", "report_generation", 1, 1, 10⟩) = true
    ∧ SubmitTaskStep true (List.replicate 100 ⟨"report_1", "report_generation", 1, 1, 10⟩)
        ⟨"report_2", "report_generation", 2, 1, 10⟩ SubmitOutcome.queueFull
        (List.replicate 100 ⟨"report_1", "report_generation", 1, 1, 10⟩) = false := by
  constructor <;> decide

/-- C6 amended: `SubmitTask` never blocks (some outcome is always possible
immediately), and when the submission context is not canceled it behaves as
claimed: a full queue yields the queue-full error with the queue unchanged,
otherwise the task is enqueued.  A canceled context can pre-empt both. -/
theorem C6_submit_nonblocking (ctxDone : Bool) (q : List Task) (task : Task) :
    (∃ o q', SubmitTaskStep ctxDone q task o q' = true)
    ∧ (ctxDone = false → taskQueueCapacity ≤ q.length →
        ∀ o q', SubmitTaskStep false q task o q' = true →
          o = SubmitOutcome.queueFull ∧ q' = q)
    ∧ (ctxDone = false → q.length < taskQueueCapacity →
        ∀ o q', SubmitTaskStep false q task o q' = true →
          o = SubmitOutcome.enqueued ∧ q' = q ++ [task]) := by
  refine ⟨?_, fun _ hfull o q' hstep => ?_, fun _ hfree o q' hstep => ?_⟩
  · by_cases hlen : q.length < taskQueueCapacity
    · exact ⟨SubmitOutcome.enqueued, q ++ [task], by simp [SubmitTaskStep, hlen]⟩
    · cases hc : ctxDone
      · exact ⟨SubmitOutcome.queueFull, q, by simp [SubmitTaskStep, hlen]⟩
      · exact ⟨SubmitOutcome.ctxErr, q, by simp [SubmitTaskStep, hlen]⟩
  · unfold SubmitTaskStep at hstep
    rw [if_neg (by simp; omega)] at hstep
    simpa using hstep
  · unfold SubmitTaskStep at hstep
    rw [if_pos (by simp [hfree])] at hstep
    simp [hfree] at hstep
    simpa using hstep

/-- Closed instance of the amended C6: with a live context and an empty
queue, a context-error outcome is impossible. -/
theorem C6_witness :
    SubmitTaskStep false [] ⟨"report_1", "report_generation", 1, 1, 10⟩
      SubmitOutcome.ctxErr [] = false := by
  by_contra hne
  have hstep : SubmitTaskStep false [] ⟨"report_1", "report_generation", 1, 1, 10⟩
      SubmitOutcome.ctxErr [] = true := by
    revert hne
    cases SubmitTaskStep false [] ⟨"report_1", "report_generation", 1, 1, 10⟩
      SubmitOutcome.ctxErr [] <;> simp
  have hout :=
    ((C6_submit_nonblocking false [] ⟨"report_1", "report_generation", 1, 1, 10⟩).2.2
      rfl (by decide) SubmitOutcome.ctxErr [] hstep).1
  exact absurd hout (by decide)

/-- C8, evaluated at the failing input: report 1 is Processing with its
generation task in flight (its cancel handle is registered in the
*processor's* registry under "report_1"; the *service's* registry is empty —
no code path in the repository ever stores into it).  `UpdateReport` with a
Canceled patch succeeds and writes the status, but invokes no cancellation
handle and leaves the processor registry untouched: the in-flight task is
not canceled, although both the spec and the claim say a transition into
Canceled triggers task cancellation. -/
theorem C8_cancellation_is_noop :
    UpdateReport
        { db := [(1, { Status := StatusProcessing, FileKey := "", UpdatedAt := 0,
                       GeneratedAt := none, UpdatedBy := "u", Title := "t",
                       Description := "" })],
          svcCancellations := [], procCancellations := ["report_1"],
          invokedSvc := [], invokedProc := [] }
        1
        { Title := none, Description := none, Status := some StatusCanceled,
          Parameters := none, UpdatedBy := "admin" }
        7 =
      ({ db := [(1, { Status := StatusCanceled, FileKey := "", UpdatedAt := 7,
                      GeneratedAt := none, UpdatedBy := "admin", Title := "t",
                      Description := "" })],
         svcCancellations := [], procCancellations := ["report_1"],
         invokedSvc := [], invokedProc := [] }, none) := rfl

/-- C9 fails as stated: the legacy local backend
(src/internal/storage/storage.go) propagates the not-exist error of
`os.Remove`, so deleting an absent key is an error there, not a success. -/
theorem C9_counterexample :
    LegacyLocalStorage.Delete "/data" [] "x" = Except.error "failed to delete file" := rfl

/-- C9 amended: `Delete` is idempotent for the full local backend of
part_005 (a not-exist error from `os.Remove` is swallowed) and for the S3
backend (the S3 `DeleteObject` call succeeds whether or not the key
exists); deleting an existing key removes its content.  The legacy local
backend in internal/storage/storage.go, by contrast, returns an error on a
missing key (see the counterexample). -/
theorem C9_delete_idempotent (basePath key : String) (fs : FS) (b : Bucket) :
    (lookupFS fs (getFullPath basePath key) = none →
      LocalStorage.Delete basePath fs key = Except.ok fs)
    ∧ (∀ v, lookupFS fs (getFullPath basePath key) = some v →
      LocalStorage.Delete basePath fs key =
        Except.ok (fs.filter fun p => ¬ p.1 = getFullPath basePath key)
      ∧ lookupFS (fs.filter fun p => ¬ p.1 = getFullPath basePath key)
          (getFullPath basePath key) = none)
    ∧ S3Storage.Delete true b key = Except.ok (b.filter fun p => ¬ p.1 = key)
    ∧ lookupFS (b.filter fun p => ¬ p.1 = key) key = none := by
  refine ⟨fun habs => ?_, fun v hpres => ⟨?_, lookupFS_filter_ne fs _⟩, rfl,
    lookupFS_filter_ne b key⟩
  · unfold LocalStorage.Delete osRemove
    simp [habs, OSError.IsNotExist]
  · unfold LocalStorage.Delete osRemove
    simp [hpres]

/-- Closed instance of the amended C9: deleting a missing key succeeds and
deleting a present key removes it. -/
theorem C9_witness :
    LocalStorage.Delete "/data" [] "x" = Except.ok []
    ∧ LocalStorage.Delete "/data" [("/data/x", "c")] "x" = Except.ok [] :=
  ⟨(C9_delete_idempotent "/data" "x" [] []).1 rfl,
   ((C9_delete_idempotent "/data" "x" [("/data/x", "c")] []).2.1 "c" rfl).1⟩

end ReportSrv
